import Mathlib

/-!
Verification of the cmdref PKCE login flow and session store.

This file gives a shallow embedding, in Lean, of the parts of the Go
sources relevant to the frozen claims:

* `src/auth/pkce.go` — PKCE verifier/challenge generation
  (`randomBase64URL`, `codeChallengeS256`), the loopback callback
  handler, and the wait/timeout race in `LoginWithGooglePKCE`.
* `src/auth/session_store.go` — `Session`, `SaveSession`, `LoadSession`.
* `src/auth/backend.go` — `CmdrefAuthResponse`, `exchangeViaBackend`.
* `src/unnamed/part_000` (package `api`) — `DoJSON`.

Machine integers are modelled as `Nat` with explicit `% 2 ^ w` where the
Go code relies on wrap-around; fallible operations return `Option` or
`Except`.  Randomness and I/O are modelled by passing the random bytes,
the wall-clock string, the filesystem state, or the HTTP response in as
explicit arguments.  All recursion is structural (fuel-indexed where the
measure is the input length) so that every definition evaluates inside
the kernel.
-/

/-! ## Base64url (Go `encoding/base64` `RawURLEncoding`)

Go's `base64.RawURLEncoding` uses the URL-safe alphabet `A–Z a–z 0–9 - _`
and omits the `=` padding.  Decoding (the default, non-`Strict` mode used
by `DecodeString`) rejects characters outside the alphabet and a dangling
single symbol, and ignores non-zero trailing bits. -/

/-- The 64 symbols of the URL-safe alphabet: uppercase, lowercase,
digits, then `-` and `_`. -/
def b64Alphabet : List Char :=
  ((List.range 26).map (fun i => Char.ofNat (65 + i)) ++
   (List.range 26).map (fun i => Char.ofNat (97 + i))) ++
  ((List.range 10).map (fun i => Char.ofNat (48 + i)) ++ ['-', '_'])

def b64Char (n : Nat) : Char := b64Alphabet.getD n 'A'

def b64Index (c : Char) : Option Nat := b64Alphabet.findIdx? (fun d => d = c)

/-- Encode a byte list, 3 bytes to 4 symbols, with the RFC 4648 tail
(2 symbols for 1 leftover byte, 3 symbols for 2). -/
def b64EncodeChunks : List Nat → List Char
  | a :: b :: c :: rest =>
      b64Char (a / 4) :: b64Char (a % 4 * 16 + b / 16) ::
      b64Char (b % 16 * 4 + c / 64) :: b64Char (c % 64) :: b64EncodeChunks rest
  | [a, b] => [b64Char (a / 4), b64Char (a % 4 * 16 + b / 16), b64Char (b % 16 * 4)]
  | [a] => [b64Char (a / 4), b64Char (a % 4 * 16)]
  | [] => []

/-- Decode without padding: 4 symbols to 3 bytes, tails of 3 or 2 symbols
to 2 or 1 bytes; a single leftover symbol is corrupt input. -/
def b64DecodeChunks : List Char → Option (List Nat)
  | c0 :: c1 :: c2 :: c3 :: rest =>
      match b64Index c0, b64Index c1, b64Index c2, b64Index c3 with
      | some s0, some s1, some s2, some s3 =>
          match b64DecodeChunks rest with
          | some bs => some ((s0 * 4 + s1 / 16) :: (s1 % 16 * 16 + s2 / 4) :: (s2 % 4 * 64 + s3) :: bs)
          | none => none
      | _, _, _, _ => none
  | [c0, c1, c2] =>
      match b64Index c0, b64Index c1, b64Index c2 with
      | some s0, some s1, some s2 => some [s0 * 4 + s1 / 16, s1 % 16 * 16 + s2 / 4]
      | _, _, _ => none
  | [c0, c1] =>
      match b64Index c0, b64Index c1 with
      | some s0, some s1 => some [s0 * 4 + s1 / 16]
      | _, _ => none
  | [_] => none
  | [] => some []

def base64urlEncode (bytes : List Nat) : String := ⟨b64EncodeChunks bytes⟩

def base64urlDecode (s : String) : Option (List Nat) := b64DecodeChunks s.data

/-- `=` never occurs in the output (the "Raw" encodings do not pad). -/
def noPadding (s : String) : Prop := '=' ∉ s.data

instance (s : String) : Decidable (noPadding s) := by
  unfold noPadding; infer_instance

/-! ## UTF-8 bytes of a string (Go `[]byte(s)` on a valid-UTF-8 string) -/

def charUtf8 (c : Char) : List Nat :=
  let n := c.toNat
  if n < 0x80 then [n]
  else if n < 0x800 then [0xC0 + n / 64, 0x80 + n % 64]
  else if n < 0x10000 then [0xE0 + n / 4096, 0x80 + n / 64 % 64, 0x80 + n % 64]
  else [0xF0 + n / 262144, 0x80 + n / 4096 % 64, 0x80 + n / 64 % 64, 0x80 + n % 64]

def utf8Bytes (s : String) : List Nat := s.data.flatMap charUtf8

/-! ## SHA-256 (Go `crypto/sha256`, FIPS 180-4)

32-bit words are `Nat` values kept below `2 ^ 32` by explicit reduction
after each addition; the bitwise operations preserve the bound. -/

def rotr32 (n x : Nat) : Nat := x / 2 ^ n + x % 2 ^ n * 2 ^ (32 - n)

def shaCh (e f g : Nat) : Nat := (e &&& f) ^^^ ((e ^^^ 0xffffffff) &&& g)

def shaMaj (a b c : Nat) : Nat := (a &&& b) ^^^ (a &&& c) ^^^ (b &&& c)

def bigSigma0 (x : Nat) : Nat := rotr32 2 x ^^^ rotr32 13 x ^^^ rotr32 22 x

def bigSigma1 (x : Nat) : Nat := rotr32 6 x ^^^ rotr32 11 x ^^^ rotr32 25 x

def smallSigma0 (x : Nat) : Nat := rotr32 7 x ^^^ rotr32 18 x ^^^ x / 2 ^ 3

def smallSigma1 (x : Nat) : Nat := rotr32 17 x ^^^ rotr32 19 x ^^^ x / 2 ^ 10

/-- The 64 SHA-256 round constants (FIPS 180-4 section 4.2.2), written
in decimal. -/
def sha256K : List Nat :=
  [1116352408, 1899447441, 3049323471, 3921009573, 961987163, 1508970993,
   2453635748, 2870763221, 3624381080, 310598401, 607225278, 1426881987,
   1925078388, 2162078206, 2614888103, 3248222580, 3835390401, 4022224774,
   264347078, 604807628, 770255983, 1249150122, 1555081692, 1996064986,
   2554220882, 2821834349, 2952996808, 3210313671, 3336571891, 3584528711,
   113926993, 338241895, 666307205, 773529912, 1294757372, 1396182291,
   1695183700, 1986661051, 2177026350, 2456956037, 2730485921, 2820302411,
   3259730800, 3345764771, 3516065817, 3600352804, 4094571909, 275423344,
   430227734, 506948616, 659060556, 883997877, 958139571, 1322822218,
   1537002063, 1747873779, 1955562222, 2024104815, 2227730452, 2361852424,
   2428436474, 2756734187, 3204031479, 3329325298]

structure Sha256State where
  a : Nat
  b : Nat
  c : Nat
  d : Nat
  e : Nat
  f : Nat
  g : Nat
  h : Nat

def sha256Init : Sha256State :=
  ⟨1779033703, 3144134277, 1013904242, 2773480762, 1359893119, 2600822924, 528734635, 1541459225⟩

/-- Big-endian bytes to 32-bit words. -/
def chunk4 : List Nat → List Nat
  | a :: b :: c :: d :: rest => (((a * 256 + b) * 256 + c) * 256 + d) :: chunk4 rest
  | _ => []

/-- Append the next word of the message schedule (current length `n ≥ 16`). -/
def scheduleStep (w : List Nat) : List Nat :=
  let n := w.length
  let s0 := smallSigma0 (w.getD (n - 15) 0)
  let s1 := smallSigma1 (w.getD (n - 2) 0)
  w ++ [(w.getD (n - 16) 0 + s0 + w.getD (n - 7) 0 + s1) % 2 ^ 32]

def extendSchedule : Nat → List Nat → List Nat
  | 0, w => w
  | n + 1, w => extendSchedule n (scheduleStep w)

def sha256Round (st : Sha256State) (kw : Nat × Nat) : Sha256State :=
  let t1 := (st.h + bigSigma1 st.e + shaCh st.e st.f st.g + kw.1 + kw.2) % 2 ^ 32
  let t2 := (bigSigma0 st.a + shaMaj st.a st.b st.c) % 2 ^ 32
  ⟨(t1 + t2) % 2 ^ 32, st.a, st.b, st.c, (st.d + t1) % 2 ^ 32, st.e, st.f, st.g⟩

def compressBlock (st : Sha256State) (block : List Nat) : Sha256State :=
  let w := extendSchedule 48 block
  let r := List.foldl sha256Round st (sha256K.zip w)
  ⟨(st.a + r.a) % 2 ^ 32, (st.b + r.b) % 2 ^ 32, (st.c + r.c) % 2 ^ 32, (st.d + r.d) % 2 ^ 32,
   (st.e + r.e) % 2 ^ 32, (st.f + r.f) % 2 ^ 32, (st.g + r.g) % 2 ^ 32, (st.h + r.h) % 2 ^ 32⟩

/-- Process the 16-word blocks of the padded message; `fuel` bounds the
number of blocks (the word-list length is always enough). -/
def processBlocks : Nat → Sha256State → List Nat → Sha256State
  | 0, st, _ => st
  | _, st, [] => st
  | fuel + 1, st, ws => processBlocks fuel (compressBlock st (ws.take 16)) (ws.drop 16)

def lenBE8 (n : Nat) : List Nat :=
  [n / 2 ^ 56 % 256, n / 2 ^ 48 % 256, n / 2 ^ 40 % 256, n / 2 ^ 32 % 256,
   n / 2 ^ 24 % 256, n / 2 ^ 16 % 256, n / 2 ^ 8 % 256, n % 256]

/-- FIPS 180-4 padding: `0x80`, zeros to 56 mod 64, 8-byte bit length. -/
def sha256Pad (msg : List Nat) : List Nat :=
  let z := (119 - msg.length % 64) % 64
  msg ++ 0x80 :: (List.replicate z 0 ++ lenBE8 (8 * msg.length))

def word4BE (w : Nat) : List Nat := [w / 2 ^ 24 % 256, w / 2 ^ 16 % 256, w / 2 ^ 8 % 256, w % 256]

def sha256StateBytes (st : Sha256State) : List Nat :=
  word4BE st.a ++ word4BE st.b ++ word4BE st.c ++ word4BE st.d ++
  word4BE st.e ++ word4BE st.f ++ word4BE st.g ++ word4BE st.h

def sha256Bytes (msg : List Nat) : List Nat :=
  let ws := chunk4 (sha256Pad msg)
  sha256StateBytes (processBlocks ws.length sha256Init ws)

/-! ## PKCE generation (`src/auth/pkce.go`)

`randomBase64URL(n)` reads `n` bytes from `crypto/rand` and base64url
encodes them without padding; the random bytes are passed in explicitly
here.  `LoginWithGooglePKCE` calls it with 64 bytes for the verifier and
32 bytes for the state. -/

def randomBase64URL (randomBytes : List Nat) : String := base64urlEncode randomBytes

/-- `pkce.go` line 33: `randomBase64URL(64)` for the verifier. -/
def verifierRandomByteCount : Nat := 64

/-- `pkce.go` line 38: `randomBase64URL(32)` for the state. -/
def stateRandomByteCount : Nat := 32

/-- `pkce.go` `codeChallengeS256`: base64url (raw) of SHA-256 of the
verifier's bytes. -/
def codeChallengeS256 (verifier : String) : String :=
  base64urlEncode (sha256Bytes (utf8Bytes verifier))

/-! ## Loopback callback handler (`src/auth/pkce.go` lines 58–81)

The `/callback` handler is a pure function of the attempt's generated
`state` and the request's query parameters (Go's `q.Get` returns `""`
for an absent parameter, so a parameter is modelled as a string that is
`""` when absent).  It returns the HTTP status written to the response
and the outcome, if any, sent on the delivery channels (`codeCh` for a
code, `errCh` for a provider error). -/

structure CallbackQuery where
  state : String
  error : String
  errorDescription : String
  code : String
deriving DecidableEq

inductive CallbackOutcome where
  | success (code : String)
  | failure (msg : String)
deriving DecidableEq

def handleCallback (generatedState : String) (q : CallbackQuery) : Nat × Option CallbackOutcome :=
  if q.state ≠ generatedState then (400, none)
  else if q.error ≠ "" then
    (400, some (.failure ("oauth error: " ++ q.error ++ " (" ++ q.errorDescription ++ ")")))
  else if q.code = "" then (400, none)
  else (200, some (.success q.code))

/-- The outcomes a sequence of requests delivers to the orchestrator, in
arrival order (requests whose handler sends nothing deliver nothing). -/
def deliveredOutcomes (generatedState : String) (qs : List CallbackQuery) : List CallbackOutcome :=
  qs.filterMap (fun q => (handleCallback generatedState q).2)

/-! ## The two-callback race (`src/auth/pkce.go` lines 45–46, 58–111)

`pkce.go` line 45: `codeCh := make(chan string, 1)` — the delivery
channel buffers one item.  The scenario of claim C3 — two
near-simultaneous valid requests with correct state, racing against the
orchestrator's single `select` receive followed by `srv.Shutdown` — is
modelled as a small interleaving transition system:

* `h1Done/h2Done`: whether each handler's `codeCh <- code` has completed;
  a send is enabled only while the one-slot buffer is empty.
* `orch`: `0` = blocked in `select`, `1` = received a value (line 99),
  `2` = `srv.Shutdown` executed (line 111, closing the listener).
* `buf`: the channel's one-item buffer; `recv`: the value the
  orchestrator captured (`Fin 2` identifies which handler's send it was).

Every interleaving is a sequence of `cbStep` steps from `cbInit`. -/

def codeChannelCapacity : Nat := 1

structure CbState where
  h1Done : Bool
  h2Done : Bool
  orch : Fin 3
  buf : Option (Fin 2)
  recv : Option (Fin 2)
deriving DecidableEq, Fintype

def cbInit : CbState := ⟨false, false, 0, none, none⟩

/-- The enabled transitions of a state, as an explicit successor list:
either handler's pending `codeCh <- code` can fire while the one-slot
buffer is free; the orchestrator's `select` receive can fire while it is
waiting and the buffer is full; and after receiving it runs
`srv.Shutdown`. -/
def cbSuccessors (s : CbState) : List CbState :=
  (if s.h1Done = false ∧ s.buf = none then [{ s with h1Done := true, buf := some 0 }] else []) ++
  (if s.h2Done = false ∧ s.buf = none then [{ s with h2Done := true, buf := some 1 }] else []) ++
  (match s.buf with
   | some v => if s.orch = 0 then [{ s with orch := 1, buf := none, recv := some v }] else []
   | none => []) ++
  (if s.orch = 1 then [{ s with orch := 2 }] else [])

def cbStep (s t : CbState) : Prop := t ∈ cbSuccessors s

instance (s t : CbState) : Decidable (cbStep s t) := by
  unfold cbStep; infer_instance

/-- A state in which no step is enabled. -/
def cbTerminal (s : CbState) : Prop := cbSuccessors s = []

instance (s : CbState) : Decidable (cbTerminal s) := by
  unfold cbTerminal; infer_instance

/-- Inductive invariant of the race (checked by `decide`): buffered and
received values come from completed sends, tokens are conserved, and the
orchestrator leaves the `select` exactly when it has captured a value. -/
def cbInv (s : CbState) : Prop :=
  (∀ v, s.buf = some v → (if v = 0 then s.h1Done else s.h2Done) = true) ∧
  (∀ v, s.recv = some v → (if v = 0 then s.h1Done else s.h2Done) = true) ∧
  (∀ v w, s.buf = some v → s.recv = some w → v ≠ w) ∧
  ((if s.h1Done then 1 else 0) + (if s.h2Done then 1 else 0)
      = (if s.buf.isSome then 1 else 0) + (if s.recv.isSome then 1 else 0)) ∧
  (s.orch = 0 ↔ s.recv = none)

instance (s : CbState) : Decidable (cbInv s) := by
  unfold cbInv; infer_instance

/-- Every step strictly decreases this measure, so every execution of the
race terminates within `cbMeasure cbInit = 6` steps. -/
def cbMeasure (s : CbState) : Nat :=
  (if s.h1Done then 0 else 2) + (if s.h2Done then 0 else 2) +
  (2 - s.orch.val) + (if s.buf.isSome then 1 else 0)

/-! ## JSON (Go `encoding/json`)

The session store and the exchange response parser both go through
`encoding/json`.  `marshalSession` reproduces the exact bytes of
`json.MarshalIndent(s, "", " ")` for the `Session` struct; the parser
below models `json.Unmarshal`: a full JSON value grammar (objects,
arrays, strings with escapes, numbers, literals), leading/trailing
whitespace as Go accepts it, rejection of trailing garbage, Go's
string-escape decoding (including `\uXXXX` and the replacement character
for invalid surrogates), and struct decoding that ignores unknown
fields, matches field names ASCII-case-insensitively, and fails on a
type mismatch. -/

/-- The lowercase hex digit for `n < 16` (`0`–`9` then `a`–`f`). -/
def hexDigitChar (n : Nat) : Char :=
  if n < 10 then Char.ofNat (48 + n) else Char.ofNat (87 + n)

/-- One character of Go `encoding/json` string escaping (HTML escaping
on, as in `json.Marshal`): `"` `\` `\n` `\r` `\t` get two-character
escapes, other control characters and `<` `>` `&` become `\u00XX`,
U+2028/U+2029 become ` `/` `, everything else is verbatim. -/
def escapeChar (c : Char) : List Char :=
  if c = '"' then ['\\', '"']
  else if c = '\\' then ['\\', '\\']
  else if c = '\n' then ['\\', 'n']
  else if c = '\r' then ['\\', 'r']
  else if c = '\t' then ['\\', 't']
  else if c.toNat < 0x20 ∨ c = '<' ∨ c = '>' ∨ c = '&' then
    ['\\', 'u', '0', '0', hexDigitChar (c.toNat / 16), hexDigitChar (c.toNat % 16)]
  else if c.toNat = 0x2028 ∨ c.toNat = 0x2029 then
    ['\\', 'u', '2', '0', '2', hexDigitChar (c.toNat % 16)]
  else [c]

def escapeChars (s : List Char) : List Char := s.flatMap escapeChar

def encodeJString (s : List Char) : List Char := '"' :: (escapeChars s ++ ['"'])

def hexVal (c : Char) : Option Nat :=
  if '0' ≤ c ∧ c ≤ '9' then some (c.toNat - '0'.toNat)
  else if 'a' ≤ c ∧ c ≤ 'f' then some (c.toNat - 'a'.toNat + 10)
  else if 'A' ≤ c ∧ c ≤ 'F' then some (c.toNat - 'A'.toNat + 10)
  else none

def hex4 : List Char → Option (Nat × List Char)
  | a :: b :: c :: d :: rest =>
      match hexVal a, hexVal b, hexVal c, hexVal d with
      | some va, some vb, some vc, some vd => some (((va * 16 + vb) * 16 + vc) * 16 + vd, rest)
      | _, _, _, _ => none
  | _ => none

/-- Decode one escape sequence (the characters after a `\`), as Go's
`unquote` does: the eight simple escapes, `\uXXXX`, UTF-16 surrogate
pairs, and U+FFFD for an unpaired surrogate. -/
def decodeEsc (l : List Char) : Option (Char × List Char) :=
  match l with
  | [] => none
  | e :: rest =>
    if e = '"' then some ('"', rest)
    else if e = '\\' then some ('\\', rest)
    else if e = '/' then some ('/', rest)
    else if e = 'b' then some ('\x08', rest)
    else if e = 'f' then some ('\x0C', rest)
    else if e = 'n' then some ('\n', rest)
    else if e = 'r' then some ('\r', rest)
    else if e = 't' then some ('\t', rest)
    else if e = 'u' then
      match hex4 rest with
      | none => none
      | some (n, rest1) =>
        if 0xD800 ≤ n ∧ n < 0xDC00 then
          match rest1 with
          | b1 :: b2 :: rest2 =>
            if b1 = '\\' ∧ b2 = 'u' then
              match hex4 rest2 with
              | some (m, rest3) =>
                if 0xDC00 ≤ m ∧ m < 0xE000 then
                  some (Char.ofNat (0x10000 + (n - 0xD800) * 0x400 + (m - 0xDC00)), rest3)
                else some (Char.ofNat 0xFFFD, rest1)
              | none => some (Char.ofNat 0xFFFD, rest1)
            else some (Char.ofNat 0xFFFD, rest1)
          | _ => some (Char.ofNat 0xFFFD, rest1)
        else if 0xDC00 ≤ n ∧ n < 0xE000 then some (Char.ofNat 0xFFFD, rest1)
        else some (Char.ofNat n, rest1)
    else none

/-- Body of a string literal after the opening `"`; consumes through the
closing `"`.  Raw control characters are invalid, as in Go's scanner.
`fuel ≥ l.length` always suffices. -/
def parseStrBody : Nat → List Char → Option (List Char × List Char)
  | 0, _ => none
  | _, [] => none
  | fuel + 1, c :: l =>
    if c = '"' then some ([], l)
    else if c = '\\' then
      match decodeEsc l with
      | none => none
      | some (d, l1) =>
        match parseStrBody fuel l1 with
        | none => none
        | some (s, r) => some (d :: s, r)
    else if c.toNat < 0x20 then none
    else
      match parseStrBody fuel l with
      | none => none
      | some (s, r) => some (c :: s, r)

def isWs (c : Char) : Bool := c = ' ' ∨ c = '\t' ∨ c = '\n' ∨ c = '\r'

def skipWs : List Char → List Char
  | [] => []
  | c :: l => if isWs c then skipWs l else c :: l

inductive JValue where
  | null
  | jbool (b : Bool)
  | jnum (raw : List Char)
  | jstr (s : List Char)
  | jarr (elems : List JValue)
  | jobj (members : List (String × JValue))

def isDigit (c : Char) : Bool := '0' ≤ c ∧ c ≤ '9'

def isNumChar (c : Char) : Bool :=
  isDigit c ∨ c = '-' ∨ c = '+' ∨ c = '.' ∨ c = 'e' ∨ c = 'E'

/-- The JSON number grammar: optional minus, `0` or a nonzero-led digit
run, optional fraction, optional exponent. -/
def validNum (l : List Char) : Bool :=
  let l1 := match l with
    | c :: r => if c = '-' then r else l
    | [] => l
  match l1 with
  | [] => false
  | c :: r =>
    if ¬ isDigit c then false
    else
      let afterInt := if c = '0' then r else r.dropWhile isDigit
      if c = '0' ∧ r.takeWhile isDigit ≠ [] then false
      else
        let afterFrac :=
          match afterInt with
          | '.' :: r2 => if r2.takeWhile isDigit = [] then ['.'] else r2.dropWhile isDigit
          | other => other
        match afterFrac with
        | [] => true
        | e :: r3 =>
          if e = 'e' ∨ e = 'E' then
            let r4 := match r3 with
              | s :: r4' => if s = '+' ∨ s = '-' then r4' else r3
              | [] => r3
            r4 ≠ [] ∧ r4.dropWhile isDigit = []
          else false

def parseNumber (l : List Char) : Option (JValue × List Char) :=
  let raw := l.takeWhile isNumChar
  if validNum raw then some (.jnum raw, l.dropWhile isNumChar) else none

/-- What `parseJ` is currently parsing: a value, the members of an object
after its `{`, or the elements of an array after its `[`. -/
inductive JMode where
  | value
  | members
  | elems

/-- The JSON parser.  `fuel` is spent once per nested value and once per
object member / array element; since each of those consumes at least one
input character first, `fuel ≥ l.length + 1` always suffices.  In
`members`/`elems` mode the result is the `jobj`/`jarr` of the remaining
members/elements, with the closing bracket consumed. -/
def parseJ : Nat → JMode → List Char → Option (JValue × List Char)
  | 0, _, _ => none
  | fuel + 1, .value, l =>
    match skipWs l with
    | [] => none
    | c :: r =>
      if c = '"' then
        match parseStrBody r.length r with
        | none => none
        | some (s, rest) => some (.jstr s, rest)
      else if c = '{' then
        match skipWs r with
        | [] => none
        | c2 :: r2 =>
          if c2 = '}' then some (.jobj [], r2)
          else parseJ fuel .members (c2 :: r2)
      else if c = '[' then
        match skipWs r with
        | [] => none
        | c2 :: r2 =>
          if c2 = ']' then some (.jarr [], r2)
          else parseJ fuel .elems (c2 :: r2)
      else if c = 't' then
        match r with
        | r1 :: r2 :: r3 :: rr => if r1 = 'r' ∧ r2 = 'u' ∧ r3 = 'e' then some (.jbool true, rr) else none
        | _ => none
      else if c = 'f' then
        match r with
        | r1 :: r2 :: r3 :: r4 :: rr =>
          if r1 = 'a' ∧ r2 = 'l' ∧ r3 = 's' ∧ r4 = 'e' then some (.jbool false, rr) else none
        | _ => none
      else if c = 'n' then
        match r with
        | r1 :: r2 :: r3 :: rr => if r1 = 'u' ∧ r2 = 'l' ∧ r3 = 'l' then some (.null, rr) else none
        | _ => none
      else parseNumber (c :: r)
  | fuel + 1, .members, l =>
    match skipWs l with
    | [] => none
    | c :: r =>
      if c = '"' then
        match parseStrBody r.length r with
        | none => none
        | some (key, r2) =>
          match skipWs r2 with
          | [] => none
          | c3 :: r3 =>
            if c3 = ':' then
              match parseJ fuel .value r3 with
              | none => none
              | some (v, r4) =>
                match skipWs r4 with
                | [] => none
                | c5 :: r5 =>
                  if c5 = ',' then
                    match parseJ fuel .members r5 with
                    | some (.jobj ms, r6) => some (.jobj ((⟨key⟩, v) :: ms), r6)
                    | _ => none
                  else if c5 = '}' then some (.jobj [(⟨key⟩, v)], r5)
                  else none
            else none
      else none
  | fuel + 1, .elems, l =>
    match parseJ fuel .value l with
    | none => none
    | some (v, r) =>
      match skipWs r with
      | [] => none
      | c :: r2 =>
        if c = ',' then
          match parseJ fuel .elems r2 with
          | some (.jarr vs, r3) => some (.jarr (v :: vs), r3)
          | _ => none
        else if c = ']' then some (.jarr [v], r2)
        else none

/-- Top level of `json.Unmarshal`: one value, then only whitespace. -/
def parseJson (l : List Char) : Option JValue :=
  match parseJ (l.length + 1) .value l with
  | none => none
  | some (v, rest) => if skipWs rest = [] then some v else none

/-! ## Struct decoding (Go `json.Unmarshal` into a struct of strings) -/

def asciiLowerChar (c : Char) : Char :=
  if 'A' ≤ c ∧ c ≤ 'Z' then Char.ofNat (c.toNat + 32) else c

def asciiLower (s : String) : String := ⟨s.data.map asciiLowerChar⟩

/-- Session struct (`src/auth/session_store.go`): json tags `token`,
`email`, `name`, `createdAt`. -/
structure Session where
  Token : String
  Email : String
  Name : String
  CreatedAt : String
deriving DecidableEq

def emptySession : Session := ⟨"", "", "", ""⟩

/-- Apply one object member to a `Session` being decoded: a tag match
(Go matches ASCII-case-insensitively) requires a string value and sets
the field, an unknown key is ignored. -/
def setSessionField (s : Session) (m : String × JValue) : Option Session :=
  let k := asciiLower m.1
  if k = "token" then
    match m.2 with
    | .jstr v => some { s with Token := ⟨v⟩ }
    | _ => none
  else if k = "email" then
    match m.2 with
    | .jstr v => some { s with Email := ⟨v⟩ }
    | _ => none
  else if k = "name" then
    match m.2 with
    | .jstr v => some { s with Name := ⟨v⟩ }
    | _ => none
  else if k = "createdat" then
    match m.2 with
    | .jstr v => some { s with CreatedAt := ⟨v⟩ }
    | _ => none
  else some s

def sessionFromJValue : JValue → Option Session
  | .null => some emptySession
  | .jobj ms => ms.foldlM setSessionField emptySession
  | _ => none

def unmarshalSession (b : List Char) : Option Session :=
  match parseJson b with
  | none => none
  | some v => sessionFromJValue v

/-- `CmdrefAuthResponse` (`src/auth/backend.go`): json tags `token`,
`email`, `name`, `picture`. -/
structure CmdrefAuthResponse where
  Token : String
  Email : String
  Name : String
  Picture : String
deriving DecidableEq

def setCmdrefField (s : CmdrefAuthResponse) (m : String × JValue) : Option CmdrefAuthResponse :=
  let k := asciiLower m.1
  if k = "token" then
    match m.2 with
    | .jstr v => some { s with Token := ⟨v⟩ }
    | _ => none
  else if k = "email" then
    match m.2 with
    | .jstr v => some { s with Email := ⟨v⟩ }
    | _ => none
  else if k = "name" then
    match m.2 with
    | .jstr v => some { s with Name := ⟨v⟩ }
    | _ => none
  else if k = "picture" then
    match m.2 with
    | .jstr v => some { s with Picture := ⟨v⟩ }
    | _ => none
  else some s

def cmdrefFromJValue : JValue → Option CmdrefAuthResponse
  | .null => some ⟨"", "", "", ""⟩
  | .jobj ms => ms.foldlM setCmdrefField ⟨"", "", "", ""⟩
  | _ => none

def unmarshalCmdref (b : List Char) : Option CmdrefAuthResponse :=
  match parseJson b with
  | none => none
  | some v => cmdrefFromJValue v

/-! ## `json.MarshalIndent(s, "", " ")` for `Session`

The exact bytes Go produces: each field on its own line, one-space
indent, `": "` after the key, a trailing newline before `}`. -/

def renderMembers : List (List Char × List Char) → List Char
  | [] => ['\n', '}']
  | (k, v) :: rest =>
    encodeJString k ++ ':' :: ' ' :: encodeJString v ++
      (match rest with
       | [] => '\n' :: ['}']
       | _ :: _ => ',' :: '\n' :: ' ' :: renderMembers rest)

def marshalSession (s : Session) : List Char :=
  '{' :: '\n' :: ' ' ::
    renderMembers [("token".data, s.Token.data), ("email".data, s.Email.data),
                   ("name".data, s.Name.data), ("createdAt".data, s.CreatedAt.data)]

/-! ## Session store (`src/auth/session_store.go`)

The filesystem is a record of the canonical session file, the temporary
file, and whether `~/.cmdref` exists.  `SaveSession` returns the new
filesystem and the error, if any; on the empty-token error it returns
before touching anything. -/

structure SessionFS where
  file : Option (List Char)
  tmp : Option (List Char)
  dirExists : Bool
deriving DecidableEq

def emptyFS : SessionFS := ⟨none, none, false⟩

/-- `SaveSession`: reject an empty token; `MkdirAll`; default
`CreatedAt` to the current RFC 3339 time (`now`, passed explicitly);
marshal; write the `.tmp` file (mode 0600); rename it over the session
file. -/
def SaveSession (now : String) (s : Session) (fs : SessionFS) : SessionFS × Option String :=
  if s.Token = "" then (fs, some "empty token")
  else
    let fs1 : SessionFS := { fs with dirExists := true }
    let s1 := if s.CreatedAt = "" then { s with CreatedAt := now } else s
    let b := marshalSession s1
    let fs2 : SessionFS := { fs1 with tmp := some b }
    ({ fs2 with file := some b, tmp := none }, none)

/-- What `os.ReadFile` on the session path can yield. -/
inductive ReadResult where
  | absent
  | ioError (msg : String)
  | content (b : List Char)
deriving DecidableEq

def fsRead (fs : SessionFS) : ReadResult :=
  match fs.file with
  | none => .absent
  | some b => .content b

/-- `LoadSession`: absent file → `ok none` ("not logged in");
other read error → hard error; unparsable content → hard error;
parsed session with empty token → `ok none`; otherwise the session. -/
def LoadSession (r : ReadResult) : Except String (Option Session) :=
  match r with
  | .absent => .ok none
  | .ioError msg => .error msg
  | .content b =>
    match unmarshalSession b with
    | none => .error "unmarshal"
    | some s => if s.Token = "" then .ok none else .ok (some s)

/-! ## Code exchange (`src/auth/backend.go` `exchangeViaBackend`)

The HTTP transport is passed in as a function from the request body to
either a network error or a `(status, body)` pair.  The definition
applies the transport to the single request it builds — the second
component of the result counts the requests issued, and is `1` by the
shape of the Go function body (one `http.DefaultClient.Do`, no loop). -/

def exchangeRequestBody (code verifier redirectURI : String) : List Char :=
  '{' :: (encodeJString "code".data ++ ':' :: encodeJString code.data ++
    ',' :: encodeJString "code_verifier".data ++ ':' :: encodeJString verifier.data ++
    ',' :: encodeJString "redirect_uri".data ++ ':' :: encodeJString redirectURI.data ++ ['}'])

def processExchangeResponse (resp : Except String (Nat × List Char)) :
    Except String CmdrefAuthResponse :=
  match resp with
  | .error e => .error e
  | .ok (status, body) =>
    if 300 ≤ status then .error ("backend exchange failed: " ++ ⟨body⟩)
    else
      match unmarshalCmdref body with
      | none => .error "unmarshal"
      | some out => if out.Token = "" then .error "backend returned empty token" else .ok out

def exchangeViaBackend (transport : List Char → Except String (Nat × List Char))
    (code verifier redirectURI : String) : Except String CmdrefAuthResponse × Nat :=
  (processExchangeResponse (transport (exchangeRequestBody code verifier redirectURI)), 1)

/-! ## The orchestrator's wait (`src/auth/pkce.go` lines 92–111)

Lines 92–95: two `fmt.Println` calls (the second printing the
authorization URL as the headless fallback), then `_ = openBrowser(...)`
— the launch error is discarded, so the subsequent behaviour cannot
depend on it.  Lines 97–111: a `select` over `codeCh`, `errCh` and
`time.After(3 * time.Minute)`; `srv.Shutdown` runs on every branch
before the function returns. -/

def loginTimeoutMinutes : Nat := 3

def browserLaunchLines (authURL : String) : List String :=
  ["Opening browser for Google login...", "authURL:  " ++ authURL]

/-- The print-and-launch phase as a function of the browser result:
`(lines printed to stdout, whether the flow proceeds to the wait)`. -/
def browserPhase (authURL : String) (_browserResult : Except String Unit) :
    List String × Bool :=
  (browserLaunchLines authURL, true)

inductive WaitEvent where
  | codeArrived (code : String)
  | errArrived (msg : String)
  | timeoutFired
deriving DecidableEq

/-- The `select` and its aftermath: `(was srv.Shutdown called before
returning, the outcome)` — a code to exchange, or the error returned. -/
def awaitCallbackResult (ev : WaitEvent) : Bool × Except String String :=
  match ev with
  | .codeArrived code => (true, .ok code)
  | .errArrived msg => (true, .error msg)
  | .timeoutFired => (true, .error "login timed out")

/-! ## The catalog client (`src/unnamed/part_000`, package `api`)

`DoJSON` loads the session, refuses to proceed without a non-empty
token, and otherwise builds the request it sends: the session-load
result is passed in explicitly, and the function returns either the
error `DoJSON` would return before any request is issued, or the request
it issues. -/

structure HttpRequestModel where
  method : String
  url : String
  headers : List (String × String)
  body : Option (List Char)
deriving DecidableEq

def notLoggedInError : String := "not logged in. run: commandref login"

def DoJSONRequest (loadResult : Except String (Option Session))
    (baseURL method path : String) (payload : Option (List Char)) :
    Except String HttpRequestModel :=
  match loadResult with
  | .error e => .error e
  | .ok sess =>
    match sess with
    | none => .error notLoggedInError
    | some s =>
      if s.Token = "" then .error notLoggedInError
      else
        .ok { method := method
              url := baseURL ++ path
              headers := ("Authorization", "Bearer " ++ s.Token) ::
                (match payload with
                 | some _ => [("Content-Type", "application/json")]
                 | none => [])
              body := payload }

/-! # Lemmas and theorems -/

/-! ## Base64url correctness -/

theorem b64Alphabet_length : b64Alphabet.length = 64 := by decide

theorem b64Index_b64Char : ∀ n < 64, b64Index (b64Char n) = some n := by decide

theorem b64Char_ne_pad (n : Nat) : b64Char n ≠ '=' := by
  rcases Nat.lt_or_ge n 64 with h | h
  · exact (by decide : ∀ m < 64, b64Char m ≠ '=') n h
  · unfold b64Char
    rw [List.getD_eq_default]
    · decide
    · rw [b64Alphabet_length]; exact h

theorem b64_decode_encode :
    ∀ b : List Nat, (∀ x ∈ b, x < 256) → b64DecodeChunks (b64EncodeChunks b) = some b := by
  intro b
  induction b using b64EncodeChunks.induct with
  | case1 a b c rest ih =>
    intro h
    have ha : a < 256 := h a (by simp)
    have hb : b < 256 := h b (by simp)
    have hc : c < 256 := h c (by simp)
    have hrest := ih (fun x hx => h x (by simp [hx]))
    rw [b64EncodeChunks, b64DecodeChunks,
      b64Index_b64Char _ (by omega), b64Index_b64Char _ (by omega),
      b64Index_b64Char _ (by omega), b64Index_b64Char _ (by omega), hrest]
    dsimp only
    have e1 : a / 4 * 4 + (a % 4 * 16 + b / 16) / 16 = a := by omega
    have e2 : (a % 4 * 16 + b / 16) % 16 * 16 + (b % 16 * 4 + c / 64) / 4 = b := by omega
    have e3 : (b % 16 * 4 + c / 64) % 4 * 64 + c % 64 = c := by omega
    rw [e1, e2, e3]
  | case2 a b =>
    intro h
    have ha : a < 256 := h a (by simp)
    have hb : b < 256 := h b (by simp)
    rw [b64EncodeChunks, b64DecodeChunks,
      b64Index_b64Char _ (by omega), b64Index_b64Char _ (by omega), b64Index_b64Char _ (by omega)]
    dsimp only
    have e1 : a / 4 * 4 + (a % 4 * 16 + b / 16) / 16 = a := by omega
    have e2 : (a % 4 * 16 + b / 16) % 16 * 16 + b % 16 * 4 / 4 = b := by omega
    rw [e1, e2]
  | case3 a =>
    intro h
    have ha : a < 256 := h a (by simp)
    rw [b64EncodeChunks, b64DecodeChunks,
      b64Index_b64Char _ (by omega), b64Index_b64Char _ (by omega)]
    dsimp only
    have e1 : a / 4 * 4 + a % 4 * 16 / 16 = a := by omega
    rw [e1]
  | case4 => intro _; rfl

theorem b64EncodeChunks_length :
    ∀ b : List Nat, (b64EncodeChunks b).length = (4 * b.length + 2) / 3 := by
  intro b
  induction b using b64EncodeChunks.induct with
  | case1 a b c rest ih => simp [b64EncodeChunks, ih]; omega
  | case2 a b => simp [b64EncodeChunks]
  | case3 a => simp [b64EncodeChunks]
  | case4 => rfl

theorem b64EncodeChunks_no_pad : ∀ b : List Nat, '=' ∉ b64EncodeChunks b := by
  intro b
  induction b using b64EncodeChunks.induct with
  | case1 a b c rest ih =>
    simp only [b64EncodeChunks, List.mem_cons, not_or]
    exact ⟨fun h => b64Char_ne_pad _ h.symm, fun h => b64Char_ne_pad _ h.symm,
      fun h => b64Char_ne_pad _ h.symm, fun h => b64Char_ne_pad _ h.symm, ih⟩
  | case2 a b =>
    simp only [b64EncodeChunks, List.mem_cons, not_or]
    refine ⟨fun h => b64Char_ne_pad _ h.symm, fun h => b64Char_ne_pad _ h.symm,
      fun h => b64Char_ne_pad _ h.symm, by simp⟩
  | case3 a =>
    simp only [b64EncodeChunks, List.mem_cons, not_or]
    refine ⟨fun h => b64Char_ne_pad _ h.symm, fun h => b64Char_ne_pad _ h.symm, by simp⟩
  | case4 => simp [b64EncodeChunks]

theorem base64urlEncode_noPadding (b : List Nat) : noPadding (base64urlEncode b) :=
  b64EncodeChunks_no_pad b

theorem base64urlDecode_encode (b : List Nat) (h : ∀ x ∈ b, x < 256) :
    base64urlDecode (base64urlEncode b) = some b :=
  b64_decode_encode b h

theorem base64urlEncode_length (b : List Nat) :
    (base64urlEncode b).length = (4 * b.length + 2) / 3 :=
  b64EncodeChunks_length b

/-- C1: for every login attempt, the verifier is the unpadded base64url
encoding of the 64 (≥ 48) random bytes drawn for it — so decoding it
recovers exactly those 64 bytes, a length inside the PKCE-valid range of
32–96 decoded bytes (equivalently, a 43–128 character verifier) — and
the challenge is the unpadded base64url encoding of the SHA-256 digest
of the verifier's bytes. -/
theorem pkce_verifier_challenge_ok (vbytes : List Nat)
    (hlen : vbytes.length = verifierRandomByteCount) (hbyte : ∀ x ∈ vbytes, x < 256) :
    48 ≤ verifierRandomByteCount ∧
    base64urlDecode (randomBase64URL vbytes) = some vbytes ∧
    32 ≤ vbytes.length ∧ vbytes.length ≤ 96 ∧
    43 ≤ (randomBase64URL vbytes).length ∧ (randomBase64URL vbytes).length ≤ 128 ∧
    noPadding (randomBase64URL vbytes) ∧
    codeChallengeS256 (randomBase64URL vbytes)
      = base64urlEncode (sha256Bytes (utf8Bytes (randomBase64URL vbytes))) ∧
    noPadding (codeChallengeS256 (randomBase64URL vbytes)) := by
  have hlen' : vbytes.length = 64 := hlen
  have hstr : (randomBase64URL vbytes).length = 86 := by
    show (base64urlEncode vbytes).length = 86
    rw [base64urlEncode_length, hlen']
  refine ⟨by decide, base64urlDecode_encode vbytes hbyte, by omega, by omega,
    by omega, by omega, base64urlEncode_noPadding vbytes, rfl,
    base64urlEncode_noPadding _⟩

/-- Witness for C1 at a concrete 64-byte input. -/
theorem pkce_verifier_challenge_ok_witness :
    (List.replicate 64 0).length = verifierRandomByteCount ∧
    base64urlDecode (randomBase64URL (List.replicate 64 0)) = some (List.replicate 64 0) ∧
    noPadding (codeChallengeS256 (randomBase64URL (List.replicate 64 0))) := by
  have h := pkce_verifier_challenge_ok (List.replicate 64 0) (by decide)
    (by intro x hx; rcases List.eq_of_mem_replicate hx with rfl; omega)
  exact ⟨by decide, h.2.1, h.2.2.2.2.2.2.2.2⟩

/-! ## The callback handler -/

/-- C2: a callback request whose `state` does not equal the state
generated for the attempt gets HTTP 400 and delivers nothing; any number
of such requests delivers exactly what zero requests deliver. -/
theorem callback_state_mismatch_rejected (generatedState : String) (qs : List CallbackQuery)
    (hmm : ∀ q ∈ qs, q.state ≠ generatedState) :
    (∀ q ∈ qs, (handleCallback generatedState q).1 = 400 ∧ (handleCallback generatedState q).2 = none) ∧
    deliveredOutcomes generatedState qs = deliveredOutcomes generatedState [] := by
  have hone : ∀ q ∈ qs, handleCallback generatedState q = (400, none) := by
    intro q hq
    unfold handleCallback
    rw [if_pos (hmm q hq)]
  constructor
  · intro q hq
    rw [hone q hq]
    exact ⟨rfl, rfl⟩
  · show qs.filterMap _ = List.filterMap _ []
    rw [List.filterMap_nil, List.filterMap_eq_nil_iff]
    intro q hq
    rw [hone q hq]

/-- Witness for C2: one mismatched request. -/
theorem callback_state_mismatch_rejected_witness :
    (∀ q ∈ [(⟨"X", "", "", "c"⟩ : CallbackQuery)], q.state ≠ "S") ∧
    deliveredOutcomes "S" [⟨"X", "", "", "c"⟩] = deliveredOutcomes "S" [] := by
  refine ⟨by decide, ?_⟩
  exact (callback_state_mismatch_rejected "S" [⟨"X", "", "", "c"⟩] (by decide)).2

/-! ## The two-callback race -/

set_option maxRecDepth 8192

set_option maxHeartbeats 1600000

/-- C3: in the race between two valid same-state callbacks and the
orchestrator (delivery channel of capacity 1 ≥ 1, single `select`
receive, then `srv.Shutdown`): the invariant `cbInv` holds initially and
is preserved by every enabled step; in every final state (no step
enabled) the orchestrator has captured exactly one outcome, both
handlers' sends have completed (no handler remains blocked), and the
shutdown that closes the listening socket has run; a captured outcome is
never replaced by a later step; and every step decreases a measure that
starts at 6, so every interleaving reaches such a final state within 6
steps — a bounded delay. -/
theorem callback_race_exactly_once :
    1 ≤ codeChannelCapacity ∧
    cbInv cbInit ∧
    (∀ s : CbState, cbInv s → ∀ t ∈ cbSuccessors s, cbInv t) ∧
    (∀ s : CbState, cbInv s → cbTerminal s →
      s.recv.isSome = true ∧ s.h1Done = true ∧ s.h2Done = true ∧ s.orch = 2) ∧
    (∀ s : CbState, cbInv s → s.recv.isSome = true → ∀ t ∈ cbSuccessors s, t.recv = s.recv) ∧
    (∀ s : CbState, ∀ t ∈ cbSuccessors s, cbMeasure t < cbMeasure s) ∧
    cbMeasure cbInit = 6 :=
  ⟨by decide, by decide, by decide, by decide, by decide, by decide, by decide⟩

/-- Witness for C3: a concrete final state of the race (both sends done,
one value received, shutdown done, the other value still buffered). -/
theorem callback_race_exactly_once_witness :
    cbInv ⟨true, true, 2, some 1, some 0⟩ ∧ cbTerminal ⟨true, true, 2, some 1, some 0⟩ ∧
    (⟨true, true, 2, some 1, some 0⟩ : CbState).recv.isSome = true := by
  refine ⟨by decide, by decide, ?_⟩
  exact (callback_race_exactly_once.2.2.2.1 ⟨true, true, 2, some 1, some 0⟩
    (by decide) (by decide)).1

/-! ## JSON string escaping round trip -/

theorem hexVal_hexDigitChar : ∀ n < 16, hexVal (hexDigitChar n) = some n := by decide

theorem hex4_digits (a b c d : Nat) (ha : a < 16) (hb : b < 16) (hc : c < 16) (hd : d < 16)
    (rest : List Char) :
    hex4 (hexDigitChar a :: hexDigitChar b :: hexDigitChar c :: hexDigitChar d :: rest)
      = some (((a * 16 + b) * 16 + c) * 16 + d, rest) := by
  unfold hex4
  dsimp only
  rw [hexVal_hexDigitChar a ha, hexVal_hexDigitChar b hb,
    hexVal_hexDigitChar c hc, hexVal_hexDigitChar d hd]

theorem decodeEsc_u00 (c : Char) (hc : c.toNat < 256) (rest : List Char) :
    decodeEsc ('u' :: '0' :: '0' :: hexDigitChar (c.toNat / 16) :: hexDigitChar (c.toNat % 16) :: rest)
      = some (c, rest) := by
  unfold decodeEsc
  dsimp only
  rw [if_neg (by decide), if_neg (by decide), if_neg (by decide), if_neg (by decide),
    if_neg (by decide), if_neg (by decide), if_neg (by decide), if_neg (by decide), if_pos rfl]
  rw [show ('0' : Char) = hexDigitChar 0 from rfl]
  rw [hex4_digits 0 0 (c.toNat / 16) (c.toNat % 16) (by omega) (by omega) (by omega) (by omega)]
  dsimp only
  rw [if_neg (by omega), if_neg (by omega)]
  have hval : ((0 * 16 + 0) * 16 + c.toNat / 16) * 16 + c.toNat % 16 = c.toNat := by omega
  rw [hval, Char.ofNat_toNat]

theorem decodeEsc_u202x (c : Char) (hc : c.toNat = 0x2028 ∨ c.toNat = 0x2029) (rest : List Char) :
    decodeEsc ('u' :: '2' :: '0' :: '2' :: hexDigitChar (c.toNat % 16) :: rest) = some (c, rest) := by
  unfold decodeEsc
  dsimp only
  rw [if_neg (by decide), if_neg (by decide), if_neg (by decide), if_neg (by decide),
    if_neg (by decide), if_neg (by decide), if_neg (by decide), if_neg (by decide), if_pos rfl]
  rw [show ('2' : Char) = hexDigitChar 2 from rfl, show ('0' : Char) = hexDigitChar 0 from rfl]
  rw [hex4_digits 2 0 2 (c.toNat % 16) (by omega) (by omega) (by omega) (by omega)]
  dsimp only
  rw [if_neg (by omega), if_neg (by omega)]
  have hval : ((2 * 16 + 0) * 16 + 2) * 16 + c.toNat % 16 = c.toNat := by omega
  rw [hval, Char.ofNat_toNat]

theorem parseStrBody_backslash (f : Nat) (l : List Char) (d : Char) (l1 : List Char)
    (hdec : decodeEsc l = some (d, l1)) :
    parseStrBody (f + 1) ('\\' :: l) = (parseStrBody f l1).map (fun p => (d :: p.1, p.2)) := by
  rw [parseStrBody, if_neg (by decide), if_pos rfl, hdec]
  dsimp only
  cases parseStrBody f l1 with
  | none => rfl
  | some p => rfl

theorem parseStrBody_plain (f : Nat) (c : Char) (l : List Char)
    (h1 : ¬ c = '"') (h2 : ¬ c = '\\') (h3 : ¬ c.toNat < 0x20) :
    parseStrBody (f + 1) (c :: l) = (parseStrBody f l).map (fun p => (c :: p.1, p.2)) := by
  rw [parseStrBody, if_neg h1, if_neg h2, if_neg h3]
  cases parseStrBody f l with
  | none => rfl
  | some p => rfl

theorem parseStrBody_enc :
    ∀ (s r : List Char) (fuel : Nat), (escapeChars s).length + 1 + r.length ≤ fuel →
      parseStrBody fuel (escapeChars s ++ '"' :: r) = some (s, r) := by
  intro s
  induction s with
  | nil =>
    intro r fuel hf
    simp only [escapeChars, List.flatMap_nil, List.length_nil, List.nil_append] at hf ⊢
    obtain ⟨f, rfl⟩ : ∃ f, fuel = f + 1 := ⟨fuel - 1, by omega⟩
    rw [parseStrBody, if_pos rfl]
  | cons c s ih =>
    intro r fuel hf
    have hesc : escapeChars (c :: s) = escapeChar c ++ escapeChars s := by
      simp [escapeChars]
    rw [hesc] at hf ⊢
    obtain ⟨f, rfl⟩ : ∃ f, fuel = f + 1 := ⟨fuel - 1, by
      have : 0 < (escapeChar c).length := by
        unfold escapeChar
        repeat' split
        all_goals simp
      simp only [List.length_append] at hf
      omega⟩
    have hih : ∀ pre : List Char, (escapeChar c).length = pre.length + 1 →
        (escapeChars s).length + 1 + r.length ≤ f := by
      intro pre hp
      simp only [List.length_append, hp] at hf
      omega
    by_cases h1 : c = '"'
    · subst h1
      rw [show escapeChar '"' = ['\\', '"'] from rfl]
      simp only [List.cons_append, List.nil_append]
      rw [parseStrBody_backslash f ('"' :: (escapeChars s ++ '"' :: r)) '"'
          (escapeChars s ++ '"' :: r) (by rfl),
        ih r f (hih ['x'] rfl)]
      rfl
    · by_cases h2 : c = '\\'
      · subst h2
        rw [show escapeChar '\\' = ['\\', '\\'] from rfl]
        simp only [List.cons_append, List.nil_append]
        rw [parseStrBody_backslash f ('\\' :: (escapeChars s ++ '"' :: r)) '\\'
            (escapeChars s ++ '"' :: r) (by rfl),
          ih r f (hih ['x'] rfl)]
        rfl
      · by_cases h3 : c = '\n'
        · subst h3
          rw [show escapeChar '\n' = ['\\', 'n'] from rfl]
          simp only [List.cons_append, List.nil_append]
          rw [parseStrBody_backslash f ('n' :: (escapeChars s ++ '"' :: r)) '\n'
              (escapeChars s ++ '"' :: r) (by rfl),
            ih r f (hih ['x'] rfl)]
          rfl
        · by_cases h4 : c = '\r'
          · subst h4
            rw [show escapeChar '\r' = ['\\', 'r'] from rfl]
            simp only [List.cons_append, List.nil_append]
            rw [parseStrBody_backslash f ('r' :: (escapeChars s ++ '"' :: r)) '\r'
                (escapeChars s ++ '"' :: r) (by rfl),
              ih r f (hih ['x'] rfl)]
            rfl
          · by_cases h5 : c = '\t'
            · subst h5
              rw [show escapeChar '\t' = ['\\', 't'] from rfl]
              simp only [List.cons_append, List.nil_append]
              rw [parseStrBody_backslash f ('t' :: (escapeChars s ++ '"' :: r)) '\t'
                  (escapeChars s ++ '"' :: r) (by rfl),
                ih r f (hih ['x'] rfl)]
              rfl
            · by_cases h6 : c.toNat < 0x20 ∨ c = '<' ∨ c = '>' ∨ c = '&'
              · have hce : escapeChar c
                    = ['\\', 'u', '0', '0', hexDigitChar (c.toNat / 16), hexDigitChar (c.toNat % 16)] := by
                  unfold escapeChar
                  rw [if_neg h1, if_neg h2, if_neg h3, if_neg h4, if_neg h5, if_pos h6]
                have hc256 : c.toNat < 256 := by
                  rcases h6 with h | h | h | h
                  · omega
                  all_goals subst h; decide
                rw [hce]
                simp only [List.cons_append, List.nil_append]
                rw [parseStrBody_backslash f _ _ _ (decodeEsc_u00 c hc256 (escapeChars s ++ '"' :: r)),
                  ih r f (hih ['x', 'x', 'x', 'x', 'x'] (by rw [hce]; rfl))]
                rfl
              · by_cases h7 : c.toNat = 0x2028 ∨ c.toNat = 0x2029
                · have hce : escapeChar c
                      = ['\\', 'u', '2', '0', '2', hexDigitChar (c.toNat % 16)] := by
                    unfold escapeChar
                    rw [if_neg h1, if_neg h2, if_neg h3, if_neg h4, if_neg h5, if_neg h6, if_pos h7]
                  rw [hce]
                  simp only [List.cons_append, List.nil_append]
                  rw [parseStrBody_backslash f _ _ _ (decodeEsc_u202x c h7 (escapeChars s ++ '"' :: r)),
                    ih r f (hih ['x', 'x', 'x', 'x', 'x'] (by rw [hce]; rfl))]
                  rfl
                · have hce : escapeChar c = [c] := by
                    unfold escapeChar
                    rw [if_neg h1, if_neg h2, if_neg h3, if_neg h4, if_neg h5, if_neg h6, if_neg h7]
                  rw [hce]
                  simp only [List.cons_append, List.nil_append]
                  rw [parseStrBody_plain f c _ h1 h2 (by push_neg at h6; exact by omega),
                    ih r f (hih [] (by rw [hce]; rfl))]
                  rfl

/-- The form in which `parseJ` invokes the string-body parser: the fuel
is the remaining input length, which is exactly enough. -/
theorem parseStrBody_exact (s r : List Char) :
    parseStrBody (escapeChars s ++ '"' :: r).length (escapeChars s ++ '"' :: r) = some (s, r) :=
  parseStrBody_enc s r _ (by simp [List.length_append]; omega)

/-! ## Parsing back what `marshalSession` writes -/

theorem skipWs_ws (c : Char) (h : isWs c = true) (l : List Char) : skipWs (c :: l) = skipWs l := by
  simp [skipWs, h]

theorem skipWs_cons (c : Char) (h : isWs c = false) (l : List Char) : skipWs (c :: l) = c :: l := by
  simp [skipWs, h]

theorem parseJ_value_str (f : Nat) (v rest : List Char) :
    parseJ (f + 1) .value (' ' :: (encodeJString v ++ rest)) = some (.jstr v, rest) := by
  rw [parseJ]
  rw [show (' ' :: (encodeJString v ++ rest)) = ' ' :: '"' :: (escapeChars v ++ '"' :: rest) from by
    simp [encodeJString]]
  rw [skipWs_ws ' ' (by decide), skipWs_cons '"' (by decide)]
  dsimp only
  rw [if_pos rfl, parseStrBody_exact v rest]

theorem parseJ_members_ws (f : Nat) (l : List Char) :
    parseJ (f + 1) .members ('\n' :: ' ' :: l) = parseJ (f + 1) .members l := by
  rw [parseJ, parseJ, skipWs_ws '\n' (by decide), skipWs_ws ' ' (by decide)]

theorem parseJ_members_render :
    ∀ (fields : List (List Char × List Char)) (k v rest : List Char) (f : Nat),
      fields.length + 1 ≤ f →
      parseJ (f + 1) .members (renderMembers ((k, v) :: fields) ++ rest)
        = some (.jobj (((k, v) :: fields).map (fun p => (⟨p.1⟩, JValue.jstr p.2))), rest) := by
  intro fields
  induction fields with
  | nil =>
    intro k v rest f hf
    obtain ⟨f1, rfl⟩ : ∃ f1, f = f1 + 1 := ⟨f - 1, by omega⟩
    rw [show renderMembers [(k, v)] ++ rest
        = '"' :: (escapeChars k ++ '"' :: (':' :: ' ' :: (encodeJString v ++ ('\n' :: '}' :: rest)))) from by
      simp [renderMembers, encodeJString]]
    rw [parseJ, skipWs_cons '"' (by decide)]
    dsimp only
    rw [if_pos rfl, parseStrBody_exact]
    dsimp only
    rw [skipWs_cons ':' (by decide)]
    dsimp only
    rw [if_pos rfl, parseJ_value_str f1 v ('\n' :: '}' :: rest)]
    dsimp only
    rw [skipWs_ws '\n' (by decide), skipWs_cons '}' (by decide)]
    dsimp only
    rw [if_neg (by decide), if_pos rfl]
    simp
  | cons p fields ih =>
    intro k v rest f hf
    obtain ⟨f1, rfl⟩ : ∃ f1, f = f1 + 1 := ⟨f - 1, by omega⟩
    rw [show renderMembers ((k, v) :: p :: fields) ++ rest
        = '"' :: (escapeChars k ++ '"' :: (':' :: ' ' :: (encodeJString v
            ++ (',' :: '\n' :: ' ' :: (renderMembers (p :: fields) ++ rest))))) from by
      simp [renderMembers, encodeJString]]
    rw [parseJ, skipWs_cons '"' (by decide)]
    dsimp only
    rw [if_pos rfl, parseStrBody_exact]
    dsimp only
    rw [skipWs_cons ':' (by decide)]
    dsimp only
    rw [if_pos rfl, parseJ_value_str f1 v (',' :: '\n' :: ' ' :: (renderMembers (p :: fields) ++ rest))]
    dsimp only
    rw [skipWs_cons ',' (by decide)]
    dsimp only
    rw [if_pos rfl]
    rw [parseJ_members_ws f1 (renderMembers (p :: fields) ++ rest)]
    rw [ih p.1 p.2 rest f1 (by simp at hf; omega)]
    simp

theorem parseJson_marshalSession (s : Session) :
    parseJson (marshalSession s)
      = some (.jobj [("token", .jstr s.Token.data), ("email", .jstr s.Email.data),
          ("name", .jstr s.Name.data), ("createdAt", .jstr s.CreatedAt.data)]) := by
  unfold parseJson
  have hlen : 6 ≤ (marshalSession s).length := by
    simp [marshalSession, renderMembers, encodeJString, List.length_append]
    omega
  obtain ⟨n, hn, hn1⟩ : ∃ n, (marshalSession s).length + 1 = (n + 5) + 1 ∧ 1 ≤ n :=
    ⟨(marshalSession s).length - 5, by omega, by omega⟩
  rw [hn]
  have hm : marshalSession s = '{' :: '\n' :: ' ' ::
      (renderMembers [("token".data, s.Token.data), ("email".data, s.Email.data),
        ("name".data, s.Name.data), ("createdAt".data, s.CreatedAt.data)] ++ []) := by
    simp [marshalSession]
  have hr : renderMembers [("token".data, s.Token.data), ("email".data, s.Email.data),
        ("name".data, s.Name.data), ("createdAt".data, s.CreatedAt.data)] ++ []
      = '"' :: (escapeChars "token".data ++ '"' :: (':' :: ' ' :: (encodeJString s.Token.data
          ++ (',' :: '\n' :: ' ' :: (renderMembers [("email".data, s.Email.data),
              ("name".data, s.Name.data), ("createdAt".data, s.CreatedAt.data)] ++ []))))) := by
    simp [renderMembers, encodeJString]
  rw [hm, parseJ, skipWs_cons '{' (by decide)]
  dsimp only
  rw [if_neg (by decide), if_pos rfl]
  rw [skipWs_ws '\n' (by decide), skipWs_ws ' ' (by decide), hr, skipWs_cons '"' (by decide)]
  dsimp only
  rw [if_neg (by decide), ← hr]
  rw [show (n + 5 : Nat) = (n + 4) + 1 from rfl]
  rw [parseJ_members_render [("email".data, s.Email.data), ("name".data, s.Name.data),
    ("createdAt".data, s.CreatedAt.data)] "token".data s.Token.data [] (n + 4) (by simp)]
  dsimp only
  rw [show skipWs ([] : List Char) = [] from rfl, if_pos rfl]
  rfl

theorem unmarshal_marshal (s : Session) : unmarshalSession (marshalSession s) = some s := by
  unfold unmarshalSession
  rw [parseJson_marshalSession]
  dsimp only
  have ht : asciiLower "token" = "token" := by decide
  have he : asciiLower "email" = "email" := by decide
  have hna : asciiLower "name" = "name" := by decide
  have hca : asciiLower "createdAt" = "createdat" := by decide
  simp [sessionFromJValue, List.foldlM, setSessionField, ht, he, hna, hca]

/-! ## Session store claims -/

/-- C4 (amended): for every credential with a non-empty token and a
non-empty `CreatedAt`, a successful save followed by a load returns
exactly that credential, all fields equal.  (When `CreatedAt` is empty,
`SaveSession` fills in the save-time timestamp, so the loaded credential
differs in that field — see the counterexample.) -/
theorem save_load_roundtrip (now : String) (s : Session) (fs : SessionFS)
    (htok : s.Token ≠ "") (hca : s.CreatedAt ≠ "") :
    (SaveSession now s fs).2 = none ∧
    LoadSession (fsRead (SaveSession now s fs).1) = .ok (some s) := by
  have h1 : SaveSession now s fs
      = ({ fs with dirExists := true, tmp := none, file := some (marshalSession s) }, none) := by
    unfold SaveSession
    rw [if_neg htok, if_neg hca]
  rw [h1]
  refine ⟨rfl, ?_⟩
  show LoadSession (.content (marshalSession s)) = .ok (some s)
  unfold LoadSession
  dsimp only
  rw [unmarshal_marshal]
  dsimp only
  rw [if_neg htok]

/-- Witness for C4 at a concrete credential. -/
theorem save_load_roundtrip_witness :
    ("t" : String) ≠ "" ∧ ("2026-01-01T00:00:00Z" : String) ≠ "" ∧
    LoadSession (fsRead (SaveSession "now" ⟨"t", "e", "n", "2026-01-01T00:00:00Z"⟩ emptyFS).1)
      = .ok (some ⟨"t", "e", "n", "2026-01-01T00:00:00Z"⟩) := by
  refine ⟨by decide, by decide, ?_⟩
  exact (save_load_roundtrip "now" ⟨"t", "e", "n", "2026-01-01T00:00:00Z"⟩ emptyFS
    (by decide) (by decide)).2

/-- C4 counterexample: saving a credential whose `CreatedAt` is empty
succeeds, but the load returns the credential with `CreatedAt` set to
the save-time timestamp — not the credential that was saved. -/
theorem save_load_createdAt_cex :
    (SaveSession "2026-01-01T00:00:00Z" ⟨"t", "", "", ""⟩ emptyFS).2 = none ∧
    LoadSession (fsRead (SaveSession "2026-01-01T00:00:00Z" ⟨"t", "", "", ""⟩ emptyFS).1)
      ≠ .ok (some ⟨"t", "", "", ""⟩) := by
  have h1 : SaveSession "2026-01-01T00:00:00Z" ⟨"t", "", "", ""⟩ emptyFS
      = (⟨some (marshalSession ⟨"t", "", "", "2026-01-01T00:00:00Z"⟩), none, true⟩, none) := rfl
  rw [h1]
  refine ⟨rfl, ?_⟩
  show LoadSession (.content (marshalSession ⟨"t", "", "", "2026-01-01T00:00:00Z"⟩))
      ≠ .ok (some ⟨"t", "", "", ""⟩)
  unfold LoadSession
  dsimp only
  rw [unmarshal_marshal ⟨"t", "", "", "2026-01-01T00:00:00Z"⟩]
  dsimp only
  simp

/-- C5: saving a credential with an empty token fails with an error and
leaves the filesystem — in particular any existing session file —
exactly as it was. -/
theorem save_empty_token_rejected (now : String) (s : Session) (fs : SessionFS)
    (h : s.Token = "") :
    SaveSession now s fs = (fs, some "empty token") := by
  unfold SaveSession
  rw [if_pos h]

/-- Witness for C5: an empty-token credential over an existing file. -/
theorem save_empty_token_rejected_witness :
    (Session.mk "" "e" "n" "c").Token = "" ∧
    SaveSession "now" ⟨"", "e", "n", "c"⟩ ⟨some ['x'], none, true⟩
      = (⟨some ['x'], none, true⟩, some "empty token") := by
  refine ⟨by decide, ?_⟩
  exact save_empty_token_rejected "now" ⟨"", "e", "n", "c"⟩ ⟨some ['x'], none, true⟩ (by decide)

/-- C8: `LoadSession` returns "absent" exactly when the file does not
exist or its content parses to a session with an empty token, and a hard
error exactly for a read failure other than non-existence or for content
that does not parse. -/
theorem load_absent_and_error_iff (r : ReadResult) :
    (LoadSession r = .ok none ↔
      r = .absent ∨ ∃ b s, r = .content b ∧ unmarshalSession b = some s ∧ s.Token = "") ∧
    ((∃ e, LoadSession r = .error e) ↔
      (∃ m, r = .ioError m) ∨ ∃ b, r = .content b ∧ unmarshalSession b = none) := by
  cases r with
  | absent => simp [LoadSession]
  | ioError m => simp [LoadSession]
  | content b =>
    simp only [LoadSession]
    cases hu : unmarshalSession b with
    | none => simp [hu]
    | some s =>
      by_cases hs : s.Token = "" <;> simp [hu, hs]

/-! ## Code exchange, timeout, browser launch, catalog client -/

/-- C6: the exchanger returns a credential exactly when the transport
succeeded, the status is in the success range accepted by the code
(below 300), the body unmarshals, and the returned token is non-empty;
and it issues exactly one request (no retry). -/
theorem exchange_ok_iff (transport : List Char → Except String (Nat × List Char))
    (code verifier redirectURI : String) (c : CmdrefAuthResponse) :
    ((exchangeViaBackend transport code verifier redirectURI).1 = .ok c ↔
      ∃ status body, transport (exchangeRequestBody code verifier redirectURI) = .ok (status, body) ∧
        status < 300 ∧ unmarshalCmdref body = some c ∧ c.Token ≠ "") ∧
    (exchangeViaBackend transport code verifier redirectURI).2 = 1 := by
  refine ⟨?_, rfl⟩
  show processExchangeResponse (transport (exchangeRequestBody code verifier redirectURI)) = .ok c ↔ _
  cases htr : transport (exchangeRequestBody code verifier redirectURI) with
  | error e => simp [processExchangeResponse]
  | ok p =>
    obtain ⟨status, body⟩ := p
    simp only [processExchangeResponse]
    by_cases hst : 300 ≤ status
    · rw [if_pos hst]
      constructor
      · intro h
        exact absurd h (by simp)
      · rintro ⟨st, bd, hok, hlt, _⟩
        rw [Except.ok.injEq, Prod.mk.injEq] at hok
        obtain ⟨rfl, rfl⟩ := hok
        omega
    · rw [if_neg hst]
      cases hum : unmarshalCmdref body with
      | none =>
        dsimp only
        constructor
        · intro h
          exact absurd h (by simp)
        · rintro ⟨st, bd, hok, hlt, hum2, _⟩
          rw [Except.ok.injEq, Prod.mk.injEq] at hok
          obtain ⟨rfl, rfl⟩ := hok
          rw [hum] at hum2
          exact absurd hum2 (by simp)
      | some out =>
        dsimp only
        by_cases htok : out.Token = ""
        · rw [if_pos htok]
          constructor
          · intro h
            exact absurd h (by simp)
          · rintro ⟨st, bd, hok, hlt, hum2, htok2⟩
            rw [Except.ok.injEq, Prod.mk.injEq] at hok
            obtain ⟨rfl, rfl⟩ := hok
            rw [hum, Option.some.injEq] at hum2
            subst hum2
            exact absurd htok htok2
        · rw [if_neg htok]
          constructor
          · intro h
            rw [Except.ok.injEq] at h
            subst h
            exact ⟨status, body, rfl, by omega, hum, htok⟩
          · rintro ⟨st, bd, hok, hlt, hum2, htok2⟩
            rw [Except.ok.injEq, Prod.mk.injEq] at hok
            obtain ⟨rfl, rfl⟩ := hok
            rw [hum, Option.some.injEq] at hum2
            rw [hum2]

/-- Witness for C6's success direction at a concrete transport whose
response body is the JSON object with the single member token: t1. -/
theorem exchange_ok_iff_witness :
    (exchangeViaBackend
        (fun _ => .ok (200, '\x7b' :: (encodeJString "token".data ++ ':' :: encodeJString "t1".data ++ ['\x7d'])))
        "c" "v" "r").1
      = .ok ⟨"t1", "", "", ""⟩ := by
  refine ((exchange_ok_iff
    (fun _ => .ok (200, '\x7b' :: (encodeJString "token".data ++ ':' :: encodeJString "t1".data ++ ['\x7d'])))
    "c" "v" "r" ⟨"t1", "", "", ""⟩).1).2 ?_
  exact ⟨200, '\x7b' :: (encodeJString "token".data ++ ':' :: encodeJString "t1".data ++ ['\x7d']),
    rfl, by omega, by decide, by decide⟩

/-- C7: when the 3-minute timeout fires with no callback outcome, the
orchestrator shuts the callback server down (releasing the listening
port) and returns a timeout error — the attempt fails with no
resumption. -/
theorem timeout_fails_and_releases_port :
    awaitCallbackResult .timeoutFired = (true, .error "login timed out") ∧
    loginTimeoutMinutes = 3 :=
  ⟨rfl, rfl⟩

/-- C9 counterexample: the login's printed output and control flow when
the browser launch fails are identical to when it succeeds — the
failure is not reported to the user (the source discards the error:
`_ = openBrowser(authURL)`). -/
theorem browser_failure_not_reported_cex :
    browserPhase "https://accounts.google.com/o/oauth2/v2/auth" (.error "exec: xdg-open not found")
      = browserPhase "https://accounts.google.com/o/oauth2/v2/auth" (.ok ()) := rfl

/-- C9 (amended): a failure to launch the browser is silently ignored
and does not abort the login — the flow proceeds to wait for the
callback, and the authorization URL is printed to standard output
regardless of the launch outcome. -/
theorem browser_failure_ignored (authURL : String) (res : Except String Unit) :
    (browserPhase authURL res).2 = true ∧
    ("authURL:  " ++ authURL) ∈ (browserPhase authURL res).1 ∧
    (browserPhase authURL res).1 = (browserPhase authURL (.ok ())).1 :=
  ⟨rfl, by simp [browserPhase, browserLaunchLines], rfl⟩

/-- C10: `DoJSON` issues a request exactly when the session load
succeeded with a non-empty token; the request then carries the bearer
token; and a missing session or empty token produces the "not logged
in" error with no request issued. -/
theorem doJSON_requires_login (loadResult : Except String (Option Session))
    (baseURL method path : String) (payload : Option (List Char)) :
    ((∃ req, DoJSONRequest loadResult baseURL method path payload = .ok req) ↔
      ∃ s, loadResult = .ok (some s) ∧ s.Token ≠ "") ∧
    (∀ s, loadResult = .ok (some s) → s.Token ≠ "" →
      ∃ req, DoJSONRequest loadResult baseURL method path payload = .ok req ∧
        ("Authorization", "Bearer " ++ s.Token) ∈ req.headers) ∧
    ((loadResult = .ok none ∨ ∃ s, loadResult = .ok (some s) ∧ s.Token = "") →
      DoJSONRequest loadResult baseURL method path payload = .error notLoggedInError) := by
  refine ⟨?_, ?_, ?_⟩
  · cases loadResult with
    | error e => simp [DoJSONRequest]
    | ok sess =>
      cases sess with
      | none => simp [DoJSONRequest]
      | some s =>
        by_cases hs : s.Token = "" <;> simp [DoJSONRequest, hs]
  · intro s hs htok
    rcases hs with rfl
    refine ⟨{ method := method
              url := baseURL ++ path
              headers := ("Authorization", "Bearer " ++ s.Token) ::
                (match payload with
                 | some _ => [("Content-Type", "application/json")]
                 | none => [])
              body := payload }, ?_, ?_⟩
    · simp [DoJSONRequest, htok]
    · simp
  · intro h
    rcases h with rfl | ⟨s, rfl, hs⟩
    · rfl
    · simp [DoJSONRequest, hs]

/-- Witness for C10 at a concrete loaded session. -/
theorem doJSON_requires_login_witness :
    (Except.ok (some (Session.mk "t" "" "" "")) : Except String (Option Session))
        = .ok (some ⟨"t", "", "", ""⟩) ∧
    ∃ req, DoJSONRequest (.ok (some ⟨"t", "", "", ""⟩)) "http://127.0.0.1:8080" "GET" "/v1/x" none
        = .ok req ∧ ("Authorization", "Bearer " ++ ("t" : String)) ∈ req.headers := by
  refine ⟨rfl, ?_⟩
  exact (doJSON_requires_login (.ok (some ⟨"t", "", "", ""⟩)) "http://127.0.0.1:8080" "GET" "/v1/x"
    none).2.1 ⟨"t", "", "", ""⟩ rfl (by decide)
